import Mathlib

/-!
# Verification of the OpenSfM undistortion core

A shallow embedding of `opensfm/commands/undistort.py`: the orchestration pass
that converts every shot of a reconstruction to distortion-free perspective
shots, the panorama cube-map splitter, the camera-model converters, the raster
resampling dispatch, and the track-graph re-projection for panorama sub-shots.

Python floats are embedded as rationals (`ℚ`); the pixel-level numeric content
of OpenCV calls (`cv2.resize`, `cv2.remap`, `cv2.initUndistortRectifyMap`) is
represented symbolically as nodes of a `Raster` term recording exactly which
operation was applied with which parameters, so that the claims about *which*
resampling operations the code performs are provable while the sampled pixel
values (floating point, outside the scope of the claims) stay abstract.
Camera classes live in `opensfm/types.py`, which is outside the sources under
verification; their projection methods are therefore carried as function
fields on the embedded `Camera` record.
-/

namespace Undistort

/-- A 3-vector of rationals (numpy 3-arrays of the source). -/
structure Vec3 where
  x : ℚ
  y : ℚ
  z : ℚ
deriving DecidableEq

/-- A 3×3 rational matrix (numpy 3×3 arrays of the source), row major. -/
structure Mat3 where
  m11 : ℚ
  m12 : ℚ
  m13 : ℚ
  m21 : ℚ
  m22 : ℚ
  m23 : ℚ
  m31 : ℚ
  m32 : ℚ
  m33 : ℚ
deriving DecidableEq

/-- Matrix transpose (`.T` in numpy). -/
def Mat3.transpose (A : Mat3) : Mat3 :=
  ⟨A.m11, A.m21, A.m31, A.m12, A.m22, A.m32, A.m13, A.m23, A.m33⟩

/-- Matrix product (`np.dot` on two 3×3 matrices). -/
def Mat3.mul (A B : Mat3) : Mat3 :=
  ⟨A.m11 * B.m11 + A.m12 * B.m21 + A.m13 * B.m31,
   A.m11 * B.m12 + A.m12 * B.m22 + A.m13 * B.m32,
   A.m11 * B.m13 + A.m12 * B.m23 + A.m13 * B.m33,
   A.m21 * B.m11 + A.m22 * B.m21 + A.m23 * B.m31,
   A.m21 * B.m12 + A.m22 * B.m22 + A.m23 * B.m32,
   A.m21 * B.m13 + A.m22 * B.m23 + A.m23 * B.m33,
   A.m31 * B.m11 + A.m32 * B.m21 + A.m33 * B.m31,
   A.m31 * B.m12 + A.m32 * B.m22 + A.m33 * B.m32,
   A.m31 * B.m13 + A.m32 * B.m23 + A.m33 * B.m33⟩

/-- Matrix-vector product.  The source writes `np.dot(b, R.T)` for a row
vector `b`, which equals `R · b` as a column vector; we use the latter form. -/
def Mat3.mulVec (A : Mat3) (v : Vec3) : Vec3 :=
  ⟨A.m11 * v.x + A.m12 * v.y + A.m13 * v.z,
   A.m21 * v.x + A.m22 * v.y + A.m23 * v.z,
   A.m31 * v.x + A.m32 * v.y + A.m33 * v.z⟩

/-- `cv2.INTER_NEAREST` (OpenCV interpolation-mode constant). -/
def INTER_NEAREST : Nat := 0

/-- `cv2.INTER_LINEAR` (OpenCV interpolation-mode constant). -/
def INTER_LINEAR : Nat := 1

/-- `cv2.INTER_AREA` (OpenCV interpolation-mode constant). -/
def INTER_AREA : Nat := 3

/-- A camera object of `opensfm/types.py` (outside the verified sources),
embedded as one duck-typed attribute bag as in Python: the class-specific
numeric attributes all live on the record and default to `0`, and the
`projection_type` string tag drives every dispatch in the verified source.
The class methods `pixel_bearing` (normalized pixel to ray direction) and
`project` (ray direction to normalized pixel) are carried as function fields;
the claims about the verified source hold for every value of these fields. -/
structure Camera where
  id : String := ""
  projection_type : String := ""
  width : Int := 0
  height : Int := 0
  focal : ℚ := 0
  focal_prior : ℚ := 0
  focal_x : ℚ := 0
  focal_y : ℚ := 0
  focal_x_prior : ℚ := 0
  focal_y_prior : ℚ := 0
  k1 : ℚ := 0
  k2 : ℚ := 0
  k3 : ℚ := 0
  p1 : ℚ := 0
  p2 : ℚ := 0
  k1_prior : ℚ := 0
  k2_prior : ℚ := 0
  pixel_bearing : ℚ × ℚ → Vec3 := fun _ => ⟨0, 0, 1⟩
  project : Vec3 → ℚ × ℚ := fun _ => (0, 0)

/-- Modelled from the spec: "Pose: rotation (3×3 orthonormal matrix) + origin
(3-vector) … exposed via rotation-matrix and origin accessors"
(`opensfm/types.py` is outside the verified sources).  `get_rotation_matrix`,
`get_origin`, `set_rotation_matrix` and `set_origin` become plain field
accesses and functional updates. -/
structure Pose where
  rotation : Mat3 := ⟨1, 0, 0, 0, 1, 0, 0, 0, 1⟩
  origin : Vec3 := ⟨0, 0, 0⟩
deriving DecidableEq

/-- A `types.Shot`: id, referenced camera, pose and opaque metadata. -/
structure Shot where
  id : String := ""
  camera : Camera := {}
  pose : Pose := {}
  metadata : String := ""

/-- Modelled from the spec: the pixel-space calibration matrix
`camera.get_K_in_pixel_coordinates(width, height)` of `opensfm/types.py`
(outside the verified sources), kept symbolic: the record remembers which
camera it came from and at which raster size it was evaluated, which is all
the claims inspect. -/
structure KMatrix where
  camera : Camera
  width : Int
  height : Int

/-- `camera.get_K_in_pixel_coordinates(width, height)`. -/
def Camera.get_K_in_pixel_coordinates (camera : Camera) (width height : Int) : KMatrix :=
  ⟨camera, width, height⟩

/-- An image-like raster.  A `src` leaf is an input array with its numpy shape
`(height, width, channels)`; the other nodes record the resampling operations
the source applies (`cv2.resize`, the `initUndistortRectifyMap`/`remap` pair,
and the panorama per-pixel back-projection sampling loop) together with all
their parameters. -/
inductive Raster where
  | src (height width channels : Int)
  | resize (image : Raster) (width height : Int) (interp : Nat)
  | remap (image : Raster) (K : KMatrix) (distortion : List ℚ) (new_K : KMatrix)
      (size : Int × Int) (fisheyeModel : Bool) (interp : Nat)
  | renderPano (image : Raster) (panoshot perspectiveshot : Shot) (interp : Nat)

/-- The numpy `shape` of a raster, as `(height, width, channels)`.
`cv2.resize`/`remap` output at the requested destination size; the panorama
rendering outputs at the destination sub-view camera's size (`dst_shape`). -/
def Raster.shape : Raster → Int × Int × Int
  | .src h w c => (h, w, c)
  | .resize image w h _ => (h, w, (Raster.shape image).2.2)
  | .remap image _ _ _ size _ _ => (size.2, size.1, (Raster.shape image).2.2)
  | .renderPano image _ p _ => (p.camera.height, p.camera.width, (Raster.shape image).2.2)

/-- The payload of a track-graph edge: normalized feature coordinate,
feature id and feature color. -/
structure Edge where
  feature : ℚ × ℚ
  feature_id : Int
  feature_color : Int × Int × Int
deriving DecidableEq

/-- The bipartite track graph (a networkx graph in the source): a node list
and a list of (shot-id, track-id, payload) edges. -/
structure TrackGraph where
  nodes : List String := []
  edges : List (String × String × Edge) := []
deriving DecidableEq

/-- `graph.add_node(n)`: networkx node insertion is idempotent. -/
def TrackGraph.add_node (g : TrackGraph) (n : String) : TrackGraph :=
  if n ∈ g.nodes then g else { g with nodes := g.nodes ++ [n] }

/-- `graph.add_edge(u, v, …)`: networkx inserts both endpoints as nodes and
records the edge with its attribute payload. -/
def TrackGraph.add_edge (g : TrackGraph) (u v : String) (e : Edge) : TrackGraph :=
  let g := (g.add_node u).add_node v
  { g with edges := g.edges ++ [(u, v, e)] }

/-- `graph[u]`: the adjacency view of node `u`, as the list of
(neighbour, payload) pairs of the edges keyed by `u`. -/
def TrackGraph.adj (g : TrackGraph) (u : String) : List (String × Edge) :=
  g.edges.filterMap (fun x => if x.1 = u then some (x.2.1, x.2.2) else none)

/-- Modelled from the spec: the `project` method of `types.PerspectiveCamera`
(outside the verified sources) — pinhole projection with the classic radial
distortion model, "Project the rotated bearing through the sub-view camera to
get a normalized 2-D coordinate". -/
def perspectiveProject (focal k1 k2 : ℚ) (b : Vec3) : ℚ × ℚ :=
  let x := b.x / b.z
  let y := b.y / b.z
  let r2 := x * x + y * y
  let d := 1 + r2 * k1 + r2 * r2 * k2
  (focal * d * x, focal * d * y)

/-- Modelled from the spec: the `pixel_bearing` method of
`types.PerspectiveCamera` (outside the verified sources) for the ideal
distortion-free cameras built here — the ray through a normalized pixel,
up to positive scaling (the source normalizes to unit length, which no use
in the verified source is sensitive to). -/
def perspectivePixelBearing (focal : ℚ) (p : ℚ × ℚ) : Vec3 :=
  ⟨p.1 / focal, p.2 / focal, 1⟩

/-- Cosine of `q` quarter turns (`q·π/2`), exact over `ℚ`. -/
def cosQ (q : Int) : ℚ :=
  if q % 4 = 0 then 1 else if q % 4 = 2 ∨ q % 4 = -2 then -1 else 0

/-- Sine of `q` quarter turns (`q·π/2`), exact over `ℚ`. -/
def sinQ (q : Int) : ℚ :=
  if q % 4 = 1 ∨ q % 4 = -3 then 1 else if q % 4 = 3 ∨ q % 4 = -1 then -1 else 0

/-- Modelled from the spec: `tf.rotation_matrix(angle, axis)` of
`opensfm/transformations.py` (outside the verified sources), restricted to the
only arguments the verified source uses — multiples of 90° about the vertical
axis `(0, 1, 0)` — and to the 3×3 linear part `[:3, :3]` that the source
extracts.  `rotation_matrix_about_y q` is the rotation by `q·90°`. -/
def rotation_matrix_about_y (q : Int) : Mat3 :=
  ⟨cosQ q, 0, sinQ q,
   0, 1, 0,
   -sinQ q, 0, cosQ q⟩

/-- Modelled from the spec: `tf.rotation_matrix(angle, axis)` for multiples of
90° about the horizontal axis `(1, 0, 0)`, 3×3 linear part (see
`rotation_matrix_about_y`). -/
def rotation_matrix_about_x (q : Int) : Mat3 :=
  ⟨1, 0, 0,
   0, cosQ q, -sinQ q,
   0, sinQ q, cosQ q⟩

/-- Python `int()` applied to a float: truncation toward zero. -/
def int_trunc (q : ℚ) : Int :=
  if 0 ≤ q then ⌊q⌋ else ⌈q⌉

/-- `scale_image(image, scale_factor)`: scale an image by a factor
(source lines 148-156).  A factor of exactly `1.0` returns the input
unchanged; otherwise the image is resized to the truncated scaled dimensions
with nearest-neighbor interpolation. -/
def scale_image (image : Raster) (scale_factor : ℚ) : Raster :=
  if scale_factor = 1 then image
  else
    let height := image.shape.1
    let width := image.shape.2.1
    Raster.resize image (int_trunc ((width : ℚ) * scale_factor))
      (int_trunc ((height : ℚ) * scale_factor)) INTER_NEAREST

/-- `undistort_perspective_image` (source lines 159-167): remove radial
distortion from a perspective image via `cv2.initUndistortRectifyMap` and
`cv2.remap`, with distortion vector `[k1, k2, 0, 0]` and both calibration
matrices evaluated at the raster's width and height. -/
def undistort_perspective_image (image : Raster) (camera new_camera : Camera)
    (interpolation : Nat) : Raster :=
  let height := image.shape.1
  let width := image.shape.2.1
  let K := camera.get_K_in_pixel_coordinates width height
  let distortion : List ℚ := [camera.k1, camera.k2, 0, 0]
  let new_K := new_camera.get_K_in_pixel_coordinates width height
  Raster.remap image K distortion new_K (width, height) false interpolation

/-- `undistort_brown_image` (source lines 170-178): like the perspective case
but with the full Brown distortion vector `[k1, k2, p1, p2, k3]`. -/
def undistort_brown_image (image : Raster) (camera new_camera : Camera)
    (interpolation : Nat) : Raster :=
  let height := image.shape.1
  let width := image.shape.2.1
  let K := camera.get_K_in_pixel_coordinates width height
  let distortion : List ℚ := [camera.k1, camera.k2, camera.p1, camera.p2, camera.k3]
  let new_K := new_camera.get_K_in_pixel_coordinates width height
  Raster.remap image K distortion new_K (width, height) false interpolation

/-- `undistort_fisheye_image` (source lines 181-189): like the perspective
case but through `cv2.fisheye.initUndistortRectifyMap` (the equidistant
model), distortion vector `[k1, k2, 0, 0]`. -/
def undistort_fisheye_image (image : Raster) (camera new_camera : Camera)
    (interpolation : Nat) : Raster :=
  let height := image.shape.1
  let width := image.shape.2.1
  let K := camera.get_K_in_pixel_coordinates width height
  let distortion : List ℚ := [camera.k1, camera.k2, 0, 0]
  let new_K := new_camera.get_K_in_pixel_coordinates width height
  Raster.remap image K distortion new_K (width, height) true interpolation

/-- `perspective_camera_from_brown(brown)` (source lines 192-201): create a
perspective camera from a Brown camera.  The new camera keeps id, width and
height, takes the arithmetic mean of the two focal lengths and of their
priors, and zeroes the distortion and distortion priors.  The function fields
are the `types.PerspectiveCamera` methods for the resulting parameters. -/
def perspective_camera_from_brown (brown : Camera) : Camera :=
  let focal := (brown.focal_x + brown.focal_y) / 2
  let focal_prior := (brown.focal_x_prior + brown.focal_y_prior) / 2
  { id := brown.id
    projection_type := "perspective"
    width := brown.width
    height := brown.height
    focal := focal
    focal_prior := focal_prior
    k1 := 0, k1_prior := 0, k2 := 0, k2_prior := 0
    pixel_bearing := perspectivePixelBearing focal
    project := perspectiveProject focal 0 0 }

/-- `perspective_camera_from_fisheye(fisheye)` (source lines 204-213): create
a perspective camera from a fisheye camera: same id, width, height, focal and
focal prior, zero distortion and distortion priors. -/
def perspective_camera_from_fisheye (fisheye : Camera) : Camera :=
  { id := fisheye.id
    projection_type := "perspective"
    width := fisheye.width
    height := fisheye.height
    focal := fisheye.focal
    focal_prior := fisheye.focal_prior
    k1 := 0, k1_prior := 0, k2 := 0, k2_prior := 0
    pixel_bearing := perspectivePixelBearing fisheye.focal
    project := perspectiveProject fisheye.focal 0 0 }

/-- The face names of the panorama cube map, in source order. -/
def panoramaFaceNames : List String :=
  ["front", "left", "back", "right", "top", "bottom"]

/-- The face rotations of the panorama cube map, in source order
(source lines 227-234): `-i·90°` about the vertical axis for the first four
faces, `∓90°` about the horizontal axis for top and bottom. -/
def panoramaFaceRotations : List Mat3 :=
  [rotation_matrix_about_y (-0),
   rotation_matrix_about_y (-1),
   rotation_matrix_about_y (-2),
   rotation_matrix_about_y (-3),
   rotation_matrix_about_x (-1),
   rotation_matrix_about_x 1]

/-- `perspective_views_of_a_panorama(spherical_shot, width)` (source lines
216-246): create the six perspective views of a panorama.  One shared
synthetic pinhole camera (width = height = the requested sub-view width,
focal 0.5, zero distortion and priors); per face, a shot whose id appends
the face name to the panorama id, whose rotation is the face rotation
composed with the panorama's rotation matrix, and whose origin is the
panorama's origin. -/
def perspective_views_of_a_panorama (spherical_shot : Shot) (width : Int) : List Shot :=
  let camera : Camera :=
    { id := "perspective_panorama_camera"
      projection_type := "perspective"
      width := width
      height := width
      focal := 1 / 2
      focal_prior := 1 / 2
      k1 := 0, k1_prior := 0, k2 := 0, k2_prior := 0
      pixel_bearing := perspectivePixelBearing (1 / 2)
      project := perspectiveProject (1 / 2) 0 0 }
  (panoramaFaceNames.zip panoramaFaceRotations).map (fun nr =>
    { id := spherical_shot.id ++ "_perspective_view_" ++ nr.1
      camera := camera
      pose :=
        { rotation := nr.2.mul spherical_shot.pose.rotation
          origin := spherical_shot.pose.origin }
      metadata := "" })

/-- `render_perspective_view_of_a_panorama(image, panoshot, perspectiveshot,
interpolation)` (source lines 249-286): the per-pixel back-projection
resampling.  Every destination pixel of the sub-view is converted to a
bearing, rotated into the panorama frame, forward-projected and sampled from
the panorama raster with wrap-around.  The per-pixel numeric content (numpy
trigonometry and `cv2.remap`, none of which any claim inspects) is kept as a
symbolic raster node carrying exactly the arguments of the call; the output
shape is the sub-view camera's `(height, width)` as in the source. -/
def render_perspective_view_of_a_panorama (image : Raster) (panoshot perspectiveshot : Shot)
    (interpolation : Nat) : Raster :=
  Raster.renderPano image panoshot perspectiveshot interpolation

/-- The `rotated_bearing` of an observation in `add_subshot_tracks` (source
lines 297-301): the observation's bearing through the panorama camera's
inverse projection, rotated into the sub-shot frame by
`R = R_sub · R_pano⁻¹`, with the inverse realized as the transpose
(`np.dot(bearing, rotation.T)` for the row vector `bearing`). -/
def subshotRotatedBearing (panoshot perspectiveshot : Shot) (edge : Edge) : Vec3 :=
  (perspectiveshot.pose.rotation.mul panoshot.pose.rotation.transpose).mulVec
    (panoshot.camera.pixel_bearing edge.feature)

/-- The `perspective_feature` of an observation in `add_subshot_tracks`
(source line 305): the rotated bearing projected through the sub-view
camera. -/
def subshotFeature (panoshot perspectiveshot : Shot) (edge : Edge) : ℚ × ℚ :=
  perspectiveshot.camera.project (subshotRotatedBearing panoshot perspectiveshot edge)

/-- The acceptance condition of `add_subshot_tracks` (source lines 302-310):
forward component of the rotated bearing strictly positive and both
re-projected coordinates within the closed interval `[-0.5, 0.5]`. -/
def subshotAccepted (panoshot perspectiveshot : Shot) (edge : Edge) : Prop :=
  0 < (subshotRotatedBearing panoshot perspectiveshot edge).z ∧
  -(1 / 2) ≤ (subshotFeature panoshot perspectiveshot edge).1 ∧
  (subshotFeature panoshot perspectiveshot edge).1 ≤ 1 / 2 ∧
  -(1 / 2) ≤ (subshotFeature panoshot perspectiveshot edge).2 ∧
  (subshotFeature panoshot perspectiveshot edge).2 ≤ 1 / 2

/-- The per-track loop body of `add_subshot_tracks` (source lines 294-316):
compute the observation's rotated bearing, skip it if the forward component
is `≤ 0` or if the re-projected coordinate leaves `[-0.5, 0.5]` on either
axis, and otherwise add the edge with the new coordinate and the original
feature id and color. -/
def add_subshot_tracks_step (panoshot perspectiveshot : Shot) (g : TrackGraph)
    (te : String × Edge) : TrackGraph :=
  let rotated_bearing := subshotRotatedBearing panoshot perspectiveshot te.2
  if rotated_bearing.z ≤ 0 then g
  else
    let perspective_feature := subshotFeature panoshot perspectiveshot te.2
    if perspective_feature.1 < -(1 / 2) ∨ perspective_feature.1 > 1 / 2 ∨
        perspective_feature.2 < -(1 / 2) ∨ perspective_feature.2 > 1 / 2 then g
    else
      g.add_edge perspectiveshot.id te.1
        ⟨perspective_feature, te.2.feature_id, te.2.feature_color⟩

/-- `add_subshot_tracks(graph, panoshot, perspectiveshot)` (source lines
289-316): add edges between a panorama sub-shot and the tracks visible in it.
If the panorama is not a node of the graph, return the graph unchanged;
otherwise add the sub-shot node and process every observation of the
panorama. -/
def add_subshot_tracks (graph : TrackGraph) (panoshot perspectiveshot : Shot) : TrackGraph :=
  if panoshot.id ∉ graph.nodes then graph
  else
    (graph.adj panoshot.id).foldl (add_subshot_tracks_step panoshot perspectiveshot)
      (graph.add_node perspectiveshot.id)

/-- The key of an entry of the result dictionary of `undistort_image`:
the lens-undistortion path keys by the original shot id, the panorama path
keys by the sub-shot object itself (`res[subshot] = …` in the source). -/
inductive ImageKey where
  | byId (id : String)
  | byShot (shot : Shot)

/-- `undistort_image(shot, undistorted_shots, data, original, interpolation,
image_scale)` (source lines 114-145).  `data` enters only through
`data.config['depthmap_resolution']`, passed here as `depthmap_resolution`.
Returns `none` when the original raster is `None`; a singleton dictionary of
the scaled lens-undistorted raster for perspective, brown and fisheye shots
(the per-kind undistort function applied with the original camera and the
first undistorted shot's camera); for panoramas, resizes the raster to width
`4 · depthmap_resolution` and height `width / 2` with the caller's
interpolation, substitutes linear for area interpolation for the per-pixel
sampling, and renders one view per undistorted sub-shot; raises
`NotImplementedError` for every other projection kind. -/
def undistort_image (shot : Shot) (undistorted_shots : List Shot)
    (depthmap_resolution : Int) (original : Option Raster) (interpolation : Nat)
    (image_scale : ℚ) : Except String (Option (List (ImageKey × Raster))) :=
  match original with
  | none => .ok none
  | some original =>
    let projection_type := shot.camera.projection_type
    if projection_type = "perspective" ∨ projection_type = "brown" ∨
        projection_type = "fisheye" then
      match undistorted_shots with
      | [] => .error "IndexError: list index out of range"
      | ushot :: _ =>
        let new_camera := ushot.camera
        let undistorted :=
          if projection_type = "perspective" then
            undistort_perspective_image original shot.camera new_camera interpolation
          else if projection_type = "brown" then
            undistort_brown_image original shot.camera new_camera interpolation
          else
            undistort_fisheye_image original shot.camera new_camera interpolation
        .ok (some [(ImageKey.byId shot.id, scale_image undistorted image_scale)])
    else if projection_type = "equirectangular" ∨ projection_type = "spherical" then
      let subshot_width := depthmap_resolution
      let width := 4 * subshot_width
      let height := width / 2
      let image := Raster.resize original width height interpolation
      let mint := if interpolation = INTER_AREA then INTER_LINEAR else interpolation
      .ok (some (undistorted_shots.map (fun subshot =>
        (ImageKey.byShot subshot,
         scale_image (render_perspective_view_of_a_panorama image shot subshot mint)
           image_scale))))
    else
      .error ("Undistort not implemented for projection type: " ++
        shot.camera.projection_type)

/-- What `undistort_image_and_masks` hands to the raster store: the
undistorted color images (saved with the requested format), masks and
segmentations, each a dictionary as produced by `undistort_image`. -/
structure SavedOutputs where
  images : List (ImageKey × Raster)
  image_format : String
  masks : List (ImageKey × Raster)
  segmentations : List (ImageKey × Raster)

/-- The items of one `undistort_image` result, `[]` when the raster was
absent. -/
def dictItems (r : Option (List (ImageKey × Raster))) : List (ImageKey × Raster) :=
  r.getD []

/-- One `if raster is not None: undistorted = undistort_image(…); save each
item` block of `undistort_image_and_masks` (source lines 90-95, 98-103 and
106-111 are three instances of this block): the saved items, `[]` when the
raster is missing (`MissingRaster` is not an error). -/
def savedPart (shot : Shot) (undistorted_shots : List Shot) (depthmap_resolution : Int)
    (raster : Option Raster) (interpolation : Nat) (image_scale : ℚ) :
    Except String (List (ImageKey × Raster)) :=
  match raster with
  | none => pure []
  | some r => do
    let u ← undistort_image shot undistorted_shots depthmap_resolution (some r)
      interpolation image_scale
    pure (dictItems u)

/-- `undistort_image_and_masks(arguments)` (source lines 84-111): undistort
the color image with area interpolation and the caller's scale factor, then
the mask and the segmentation, each with nearest interpolation and scale
factor 1; a missing raster is skipped.  The loaded rasters stand in for
`data.load_image/mask/segmentation(shot.id)`. -/
def undistort_image_and_masks (shot : Shot) (undistorted_shots : List Shot)
    (depthmap_resolution : Int) (image mask segmentation : Option Raster)
    (image_format : String) (image_scale : ℚ) : Except String SavedOutputs := do
  let images ← savedPart shot undistorted_shots depthmap_resolution image
    INTER_AREA image_scale
  let masks ← savedPart shot undistorted_shots depthmap_resolution mask
    INTER_NEAREST 1
  let segmentations ← savedPart shot undistorted_shots depthmap_resolution segmentation
    INTER_NEAREST 1
  pure { images := images, image_format := image_format, masks := masks,
         segmentations := segmentations }

/-- Python dictionary assignment `d[k] = v` on an insertion-ordered
association list: replace in place if the key is present, append otherwise. -/
def updateAssoc {β : Type} : List (String × β) → String → β → List (String × β)
  | [], k, v => [(k, v)]
  | (k2, v2) :: rest, k, v =>
    if k = k2 then (k, v) :: rest else (k2, v2) :: updateAssoc rest k v

/-- Python dictionary lookup `d[k]`, `none` when the key is missing. -/
def lookupAssoc {β : Type} : List (String × β) → String → Option β
  | [], _ => none
  | (k2, v2) :: rest, k => if k = k2 then some v2 else lookupAssoc rest k

/-- A `types.Reconstruction`: camera dictionary, shot dictionary and the
opaque point set (copied by reference by the orchestrator). -/
structure Reconstruction where
  cameras : List (String × Camera) := []
  shots : List (String × Shot) := []
  points : List String := []

/-- `reconstruction.add_camera(camera)`: `self.cameras[camera.id] = camera`. -/
def Reconstruction.add_camera (r : Reconstruction) (camera : Camera) : Reconstruction :=
  { r with cameras := updateAssoc r.cameras camera.id camera }

/-- `reconstruction.add_shot(shot)`: `self.shots[shot.id] = shot`. -/
def Reconstruction.add_shot (r : Reconstruction) (shot : Shot) : Reconstruction :=
  { r with shots := updateAssoc r.shots shot.id shot }

/-- The inner loop of the panorama branch of the orchestrator (source lines
68-71): per sub-shot, register its camera and the sub-shot in the undistorted
reconstruction and project the panorama's tracks onto it. -/
def add_pano_subshots (urec : Reconstruction) (graph : TrackGraph) (shot : Shot) :
    List Shot → Reconstruction × TrackGraph
  | [] => (urec, graph)
  | subshot :: rest =>
    add_pano_subshots ((urec.add_camera subshot.camera).add_shot subshot)
      (add_subshot_tracks graph shot subshot) shot rest

/-- The orchestration pass of `Command.undistort_reconstruction` (source
lines 41-72): one serial walk over the shots.  Perspective shots are copied;
brown and fisheye shots get a converted pinhole camera and a new shot sharing
pose and metadata; spherical/equirectangular shots are split into six
sub-shots, each registered and given re-projected tracks; a shot of any other
projection kind matches no branch of the `if`/`elif` chain and is passed over
without any effect. -/
def undistort_shots_pass (graph : TrackGraph) (urec : Reconstruction)
    (undistorted_shots : List (String × List Shot)) (depthmap_resolution : Int) :
    List Shot → TrackGraph × Reconstruction × List (String × List Shot)
  | [] => (graph, urec, undistorted_shots)
  | shot :: rest =>
    if shot.camera.projection_type = "perspective" then
      undistort_shots_pass graph ((urec.add_camera shot.camera).add_shot shot)
        (updateAssoc undistorted_shots shot.id [shot]) depthmap_resolution rest
    else if shot.camera.projection_type = "brown" then
      let ushot : Shot :=
        { id := shot.id
          camera := perspective_camera_from_brown shot.camera
          pose := shot.pose
          metadata := shot.metadata }
      undistort_shots_pass graph ((urec.add_camera ushot.camera).add_shot ushot)
        (updateAssoc undistorted_shots shot.id [ushot]) depthmap_resolution rest
    else if shot.camera.projection_type = "fisheye" then
      let ushot : Shot :=
        { id := shot.id
          camera := perspective_camera_from_fisheye shot.camera
          pose := shot.pose
          metadata := shot.metadata }
      undistort_shots_pass graph ((urec.add_camera ushot.camera).add_shot ushot)
        (updateAssoc undistorted_shots shot.id [ushot]) depthmap_resolution rest
    else if shot.camera.projection_type = "equirectangular" ∨
        shot.camera.projection_type = "spherical" then
      let subshots := perspective_views_of_a_panorama shot depthmap_resolution
      let ug := add_pano_subshots urec graph shot subshots
      undistort_shots_pass ug.2 ug.1
        (updateAssoc undistorted_shots shot.id subshots) depthmap_resolution rest
    else
      undistort_shots_pass graph urec undistorted_shots depthmap_resolution rest

/-- The argument-assembly loop of `Command.undistort_reconstruction` (source
lines 75-78): one `(shot, undistorted_shots[shot.id])` pair per original
shot; a shot id absent from the mapping raises `KeyError` there. -/
def collect_args (undistorted_shots : List (String × List Shot)) :
    List Shot → Except String (List (Shot × List Shot))
  | [] => .ok []
  | shot :: rest =>
    match lookupAssoc undistorted_shots shot.id with
    | none => .error ("KeyError: " ++ shot.id)
    | some l => (collect_args undistorted_shots rest).map (fun r => (shot, l) :: r)

/-- The outcome of `Command.undistort_reconstruction`: the undistorted
reconstruction handed to `save_undistorted_reconstruction`, the augmented
track graph, the shot-id to sub-shot-list mapping, and the per-shot argument
list handed to `parallel_map` — or the error that interrupted its assembly. -/
structure UndistortRun where
  urec : Reconstruction
  graph : TrackGraph
  undistorted_shots : List (String × List Shot)
  args : Except String (List (Shot × List Shot))

/-- `Command.undistort_reconstruction(graph, reconstruction, data, …)`
(source lines 36-81).  `data` enters the pass only through
`int(data.config['depthmap_resolution'])`, passed as `depthmap_resolution`;
the new reconstruction starts from the original point set; the shot walk is
`undistort_shots_pass`; the argument assembly is `collect_args`. -/
def Command.undistort_reconstruction (graph : TrackGraph) (reconstruction : Reconstruction)
    (depthmap_resolution : Int) : UndistortRun :=
  let urec : Reconstruction := { points := reconstruction.points }
  let shots := reconstruction.shots.map Prod.snd
  let pass := undistort_shots_pass graph urec [] depthmap_resolution shots
  { urec := pass.2.1
    graph := pass.1
    undistorted_shots := pass.2.2
    args := collect_args pass.2.2 shots }

/-! ## Claim theorems -/

/-- C4: for every brown or fisheye camera, the converter returns a new
perspective camera with the same id, width and height, with `k1`, `k2` and
their priors all zero, and with focal (and focal prior) the arithmetic mean
of `focal_x` and `focal_y` (and of their priors) in the brown case, or the
fisheye camera's focal and prior copied unchanged in the fisheye case.  The
converters are plain functions of their input camera, hence pure and
side-effect-free. -/
theorem camera_model_converter_spec (brown fisheye : Camera) :
    ((perspective_camera_from_brown brown).projection_type = "perspective" ∧
     (perspective_camera_from_brown brown).id = brown.id ∧
     (perspective_camera_from_brown brown).width = brown.width ∧
     (perspective_camera_from_brown brown).height = brown.height ∧
     (perspective_camera_from_brown brown).k1 = 0 ∧
     (perspective_camera_from_brown brown).k2 = 0 ∧
     (perspective_camera_from_brown brown).k1_prior = 0 ∧
     (perspective_camera_from_brown brown).k2_prior = 0 ∧
     (perspective_camera_from_brown brown).focal = (brown.focal_x + brown.focal_y) / 2 ∧
     (perspective_camera_from_brown brown).focal_prior =
       (brown.focal_x_prior + brown.focal_y_prior) / 2) ∧
    ((perspective_camera_from_fisheye fisheye).projection_type = "perspective" ∧
     (perspective_camera_from_fisheye fisheye).id = fisheye.id ∧
     (perspective_camera_from_fisheye fisheye).width = fisheye.width ∧
     (perspective_camera_from_fisheye fisheye).height = fisheye.height ∧
     (perspective_camera_from_fisheye fisheye).k1 = 0 ∧
     (perspective_camera_from_fisheye fisheye).k2 = 0 ∧
     (perspective_camera_from_fisheye fisheye).k1_prior = 0 ∧
     (perspective_camera_from_fisheye fisheye).k2_prior = 0 ∧
     (perspective_camera_from_fisheye fisheye).focal = fisheye.focal ∧
     (perspective_camera_from_fisheye fisheye).focal_prior = fisheye.focal_prior) :=
  ⟨⟨rfl, rfl, rfl, rfl, rfl, rfl, rfl, rfl, rfl, rfl⟩,
   ⟨rfl, rfl, rfl, rfl, rfl, rfl, rfl, rfl, rfl, rfl⟩⟩

/-- C3: for every shot and target width `W`, the panorama splitter returns
exactly six shots with ids `{panoramaId}_perspective_view_{faceName}` in the
fixed order front, left, back, right, top, bottom; all six share one
synthetic perspective camera with width = height = `W`, focal `0.5` and zero
distortion and distortion priors; every sub-shot's origin is the panorama's
origin; and the sub-shot rotations are the face rotations (`-i·90°` about the
vertical axis for faces 0..3, `∓90°` about the horizontal axis for
top/bottom) composed with the panorama's rotation matrix. -/
theorem panorama_splitter_spec (spherical_shot : Shot) (width : Int) :
    (perspective_views_of_a_panorama spherical_shot width).map Shot.id =
      [spherical_shot.id ++ "_perspective_view_front",
       spherical_shot.id ++ "_perspective_view_left",
       spherical_shot.id ++ "_perspective_view_back",
       spherical_shot.id ++ "_perspective_view_right",
       spherical_shot.id ++ "_perspective_view_top",
       spherical_shot.id ++ "_perspective_view_bottom"] ∧
    (∃ camera : Camera,
      (perspective_views_of_a_panorama spherical_shot width).map Shot.camera =
        List.replicate 6 camera ∧
      camera.projection_type = "perspective" ∧
      camera.width = width ∧ camera.height = width ∧ camera.focal = 1 / 2 ∧
      camera.k1 = 0 ∧ camera.k2 = 0 ∧ camera.k1_prior = 0 ∧ camera.k2_prior = 0) ∧
    (perspective_views_of_a_panorama spherical_shot width).map (fun s => s.pose.origin) =
      List.replicate 6 spherical_shot.pose.origin ∧
    (perspective_views_of_a_panorama spherical_shot width).map (fun s => s.pose.rotation) =
      [(rotation_matrix_about_y (-0)).mul spherical_shot.pose.rotation,
       (rotation_matrix_about_y (-1)).mul spherical_shot.pose.rotation,
       (rotation_matrix_about_y (-2)).mul spherical_shot.pose.rotation,
       (rotation_matrix_about_y (-3)).mul spherical_shot.pose.rotation,
       (rotation_matrix_about_x (-1)).mul spherical_shot.pose.rotation,
       (rotation_matrix_about_x 1).mul spherical_shot.pose.rotation] := by
  refine ⟨?_, ⟨_, rfl, rfl, rfl, rfl, rfl, rfl, rfl, rfl, rfl⟩, rfl, rfl⟩
  simp [perspective_views_of_a_panorama, panoramaFaceNames, panoramaFaceRotations,
    String.append_assoc]

/-- C8: when the panorama shot is not a node of the track graph, the track
graph projector returns the graph entirely unchanged — no error, no sub-shot
node, no edge. -/
theorem pano_not_in_graph_noop (graph : TrackGraph) (panoshot perspectiveshot : Shot)
    (h : panoshot.id ∉ graph.nodes) :
    add_subshot_tracks graph panoshot perspectiveshot = graph := by
  simp [add_subshot_tracks, h]

/-- A concrete graph that does not contain the panorama shot `wPano`. -/
def wGraphNoPano : TrackGraph :=
  { nodes := ["other_shot", "t1"], edges := [("other_shot", "t1", ⟨(0, 0), 3, (1, 2, 3)⟩)] }

/-- A concrete panorama shot for witnesses: spherical camera whose
`pixel_bearing` maps a normalized coordinate `(x, y)` to the ray
`(x, y, 1)`. -/
def wPano : Shot :=
  { id := "pano1"
    camera :=
      { id := "sphCam", projection_type := "spherical", width := 100, height := 50
        pixel_bearing := fun p => ⟨p.1, p.2, 1⟩ } }

/-- A concrete panorama sub-shot for witnesses: perspective camera whose
`project` maps a ray `(x, y, z)` to `(x, y)`. -/
def wSub : Shot :=
  { id := "pano1_perspective_view_front"
    camera :=
      { id := "perspective_panorama_camera", projection_type := "perspective"
        width := 8, height := 8, focal := 1 / 2
        project := fun b => (b.x, b.y) } }

/-- Witness for C8 at a concrete graph and shots. -/
theorem pano_not_in_graph_noop_witness :
    wPano.id ∉ wGraphNoPano.nodes ∧
    add_subshot_tracks wGraphNoPano wPano wSub = wGraphNoPano :=
  ⟨by decide, pano_not_in_graph_noop wGraphNoPano wPano wSub (by decide)⟩

/-- C9: scaling by a factor of exactly `1.0` returns the input image itself
with no resampling; for any other factor the image is resized to the input
dimensions multiplied by the factor and truncated to integers, with
nearest-neighbor interpolation (so the output shape is the truncated scaled
shape). -/
theorem scale_image_spec (image : Raster) (scale_factor : ℚ) :
    scale_image image 1 = image ∧
    (scale_factor ≠ 1 →
      scale_image image scale_factor =
        Raster.resize image (int_trunc ((image.shape.2.1 : ℚ) * scale_factor))
          (int_trunc ((image.shape.1 : ℚ) * scale_factor)) INTER_NEAREST ∧
      (scale_image image scale_factor).shape =
        (int_trunc ((image.shape.1 : ℚ) * scale_factor),
         int_trunc ((image.shape.2.1 : ℚ) * scale_factor),
         image.shape.2.2)) := by
  refine ⟨by simp [scale_image], fun h => ⟨by simp [scale_image, h], ?_⟩⟩
  simp [scale_image, h, Raster.shape]

/-- Witness for C9: identity at factor 1 and truncated nearest-neighbor
resize at factor 1/2 on a concrete 4×6 image. -/
theorem scale_image_spec_witness :
    scale_image (Raster.src 4 6 3) 1 = Raster.src 4 6 3 ∧
    ((1 : ℚ) / 2 ≠ 1 ∧
     scale_image (Raster.src 4 6 3) (1 / 2) =
       Raster.resize (Raster.src 4 6 3) 3 2 INTER_NEAREST) := by
  refine ⟨(scale_image_spec (Raster.src 4 6 3) (1 / 2)).1, by norm_num, ?_⟩
  have h := ((scale_image_spec (Raster.src 4 6 3) (1 / 2)).2 (by norm_num)).1
  rw [h]
  norm_num [Raster.shape, int_trunc]

/-- C7: for every lens-undistortion remap, the distortion vector passed to
the remapping step is `[k1, k2, 0, 0]` when the source camera is perspective
or fisheye (the latter through the fisheye model) and
`[k1, k2, p1, p2, k3]` when it is brown, and both calibration matrices are
evaluated at the raster's width and height. -/
theorem lens_distortion_vector_spec (shot u : Shot) (rest : List Shot) (d : Int)
    (original : Raster) (interpolation : Nat) (image_scale : ℚ) :
    (shot.camera.projection_type = "perspective" →
      undistort_image shot (u :: rest) d (some original) interpolation image_scale =
        .ok (some [(ImageKey.byId shot.id,
          scale_image
            (Raster.remap original
              (shot.camera.get_K_in_pixel_coordinates original.shape.2.1 original.shape.1)
              [shot.camera.k1, shot.camera.k2, 0, 0]
              (u.camera.get_K_in_pixel_coordinates original.shape.2.1 original.shape.1)
              (original.shape.2.1, original.shape.1) false interpolation)
            image_scale)])) ∧
    (shot.camera.projection_type = "fisheye" →
      undistort_image shot (u :: rest) d (some original) interpolation image_scale =
        .ok (some [(ImageKey.byId shot.id,
          scale_image
            (Raster.remap original
              (shot.camera.get_K_in_pixel_coordinates original.shape.2.1 original.shape.1)
              [shot.camera.k1, shot.camera.k2, 0, 0]
              (u.camera.get_K_in_pixel_coordinates original.shape.2.1 original.shape.1)
              (original.shape.2.1, original.shape.1) true interpolation)
            image_scale)])) ∧
    (shot.camera.projection_type = "brown" →
      undistort_image shot (u :: rest) d (some original) interpolation image_scale =
        .ok (some [(ImageKey.byId shot.id,
          scale_image
            (Raster.remap original
              (shot.camera.get_K_in_pixel_coordinates original.shape.2.1 original.shape.1)
              [shot.camera.k1, shot.camera.k2, shot.camera.p1, shot.camera.p2, shot.camera.k3]
              (u.camera.get_K_in_pixel_coordinates original.shape.2.1 original.shape.1)
              (original.shape.2.1, original.shape.1) false interpolation)
            image_scale)])) := by
  refine ⟨fun h => ?_, fun h => ?_, fun h => ?_⟩ <;>
    simp [undistort_image, h, undistort_perspective_image, undistort_fisheye_image,
      undistort_brown_image, Camera.get_K_in_pixel_coordinates]

/-- A concrete perspective shot for witnesses. -/
def wPersp : Shot :=
  { id := "persp1"
    camera :=
      { id := "camP", projection_type := "perspective", width := 3, height := 2
        focal := 1, k1 := 1 / 10, k2 := 1 / 100 } }

/-- A concrete already-undistorted perspective shot for witnesses (the
converted pinhole camera the orchestrator pairs with a distorted shot). -/
def wPerspNew : Shot :=
  { id := "persp1"
    camera :=
      { id := "camP", projection_type := "perspective", width := 3, height := 2
        focal := 1 } }

/-- A concrete fisheye shot for witnesses. -/
def wFish : Shot :=
  { id := "fish1"
    camera :=
      { id := "camF", projection_type := "fisheye", width := 3, height := 2
        focal := 1, k1 := 1 / 5, k2 := 1 / 50 } }

/-- A concrete brown shot for witnesses. -/
def wBrown : Shot :=
  { id := "brown1"
    camera :=
      { id := "camB", projection_type := "brown", width := 3, height := 2
        focal_x := 9 / 10, focal_y := 11 / 10, k1 := 1 / 10, k2 := 1 / 100
        p1 := 1 / 1000, p2 := 1 / 2000, k3 := 1 / 500 } }

/-- Witness for C7: the three distortion vectors at concrete shots and a
concrete 2×3 raster. -/
theorem lens_distortion_vector_spec_witness :
    (undistort_image wPersp [wPerspNew] 8 (some (Raster.src 2 3 3)) INTER_AREA 1 =
      .ok (some [(ImageKey.byId "persp1",
        scale_image
          (Raster.remap (Raster.src 2 3 3) ⟨wPersp.camera, 3, 2⟩
            [1 / 10, 1 / 100, 0, 0] ⟨wPerspNew.camera, 3, 2⟩ (3, 2) false INTER_AREA)
          1)])) ∧
    (undistort_image wFish [wPerspNew] 8 (some (Raster.src 2 3 3)) INTER_AREA 1 =
      .ok (some [(ImageKey.byId "fish1",
        scale_image
          (Raster.remap (Raster.src 2 3 3) ⟨wFish.camera, 3, 2⟩
            [1 / 5, 1 / 50, 0, 0] ⟨wPerspNew.camera, 3, 2⟩ (3, 2) true INTER_AREA)
          1)])) ∧
    (undistort_image wBrown [wPerspNew] 8 (some (Raster.src 2 3 3)) INTER_AREA 1 =
      .ok (some [(ImageKey.byId "brown1",
        scale_image
          (Raster.remap (Raster.src 2 3 3) ⟨wBrown.camera, 3, 2⟩
            [1 / 10, 1 / 100, 1 / 1000, 1 / 2000, 1 / 500] ⟨wPerspNew.camera, 3, 2⟩
            (3, 2) false INTER_AREA)
          1)])) :=
  ⟨(lens_distortion_vector_spec wPersp wPerspNew [] 8 (Raster.src 2 3 3) INTER_AREA 1).1 rfl,
   (lens_distortion_vector_spec wFish wPerspNew [] 8 (Raster.src 2 3 3) INTER_AREA 1).2.1 rfl,
   (lens_distortion_vector_spec wBrown wPerspNew [] 8 (Raster.src 2 3 3) INTER_AREA 1).2.2 rfl⟩

/-- C5: for every panorama shot, `undistort_image` first resizes the source
raster to exactly width `4 · depthmap_resolution` and height `width / 2`
with the caller's interpolation, and renders each sub-view with linear
interpolation substituted whenever area interpolation was requested (any
other interpolation passes through unchanged); on the lens-undistortion path
(second conjunct) the requested interpolation is passed through to the remap
unchanged, even when it is area interpolation. -/
theorem panorama_resampler_interpolation_spec (shot : Shot) (undistorted_shots : List Shot)
    (d : Int) (original : Raster) (interpolation : Nat) (image_scale : ℚ) :
    (shot.camera.projection_type = "equirectangular" ∨
        shot.camera.projection_type = "spherical" →
      undistort_image shot undistorted_shots d (some original) interpolation image_scale =
        .ok (some (undistorted_shots.map (fun subshot =>
          (ImageKey.byShot subshot,
           scale_image
             (render_perspective_view_of_a_panorama
               (Raster.resize original (4 * d) (4 * d / 2) interpolation)
               shot subshot
               (if interpolation = INTER_AREA then INTER_LINEAR else interpolation))
             image_scale))))) ∧
    (shot.camera.projection_type = "perspective" →
      ∀ u rest, undistorted_shots = u :: rest →
        undistort_image shot undistorted_shots d (some original) interpolation image_scale =
          .ok (some [(ImageKey.byId shot.id,
            scale_image
              (undistort_perspective_image original shot.camera u.camera interpolation)
              image_scale)])) := by
  constructor
  · intro h
    rcases h with h | h <;> simp [undistort_image, h]
  · intro h u rest hu
    subst hu
    simp [undistort_image, h]

/-- Witness for C5: a concrete spherical shot resampled with area
interpolation (substituted by linear in the per-pixel step) and a concrete
perspective shot where area interpolation passes through unchanged. -/
theorem panorama_resampler_interpolation_spec_witness :
    (undistort_image wPano [wSub] 8 (some (Raster.src 10 20 3)) INTER_AREA 1 =
      .ok (some [(ImageKey.byShot wSub,
        scale_image
          (render_perspective_view_of_a_panorama
            (Raster.resize (Raster.src 10 20 3) 32 16 INTER_AREA) wPano wSub INTER_LINEAR)
          1)])) ∧
    (undistort_image wPersp [wPerspNew] 8 (some (Raster.src 10 20 3)) INTER_AREA 1 =
      .ok (some [(ImageKey.byId "persp1",
        scale_image
          (undistort_perspective_image (Raster.src 10 20 3) wPersp.camera wPerspNew.camera
            INTER_AREA)
          1)])) :=
  ⟨(panorama_resampler_interpolation_spec wPano [wSub] 8 (Raster.src 10 20 3)
      INTER_AREA 1).1 (Or.inr rfl),
   (panorama_resampler_interpolation_spec wPersp [wPerspNew] 8 (Raster.src 10 20 3)
      INTER_AREA 1).2 rfl wPerspNew [] rfl⟩

/-- C10: whenever `undistort_image_and_masks` succeeds, the mask and
segmentation outputs came from `undistort_image` invoked with nearest
interpolation and scale factor exactly 1 — independent of the caller's
requested scale — while the color image output came from `undistort_image`
with area interpolation and the caller's scale. -/
theorem masks_never_scaled (shot : Shot) (undistorted_shots : List Shot) (d : Int)
    (image mask segmentation : Option Raster) (image_format : String) (image_scale : ℚ)
    (out : SavedOutputs)
    (h : undistort_image_and_masks shot undistorted_shots d image mask segmentation
      image_format image_scale = .ok out) :
    savedPart shot undistorted_shots d mask INTER_NEAREST 1 = .ok out.masks ∧
    savedPart shot undistorted_shots d segmentation INTER_NEAREST 1 =
      .ok out.segmentations ∧
    savedPart shot undistorted_shots d image INTER_AREA image_scale = .ok out.images := by
  unfold undistort_image_and_masks at h
  cases h1 : savedPart shot undistorted_shots d image INTER_AREA image_scale with
  | error e => rw [h1] at h; simp [bind, Except.bind] at h
  | ok imgs =>
    rw [h1] at h
    cases h2 : savedPart shot undistorted_shots d mask INTER_NEAREST 1 with
    | error e => rw [h2] at h; simp [bind, Except.bind] at h
    | ok msks =>
      rw [h2] at h
      cases h3 : savedPart shot undistorted_shots d segmentation INTER_NEAREST 1 with
      | error e => rw [h3] at h; simp [bind, Except.bind] at h
      | ok segs =>
        rw [h3] at h
        simp only [bind, Except.bind, pure, Except.pure, Except.ok.injEq] at h
        subst h
        exact ⟨rfl, rfl, rfl⟩

/-- Witness for C10 at a concrete perspective shot with a present image and
mask and an absent segmentation. -/
theorem masks_never_scaled_witness :
    ∃ out : SavedOutputs,
      undistort_image_and_masks wPersp [wPerspNew] 8 (some (Raster.src 2 3 3))
        (some (Raster.src 2 3 1)) none "jpg" 1 = .ok out ∧
      savedPart wPersp [wPerspNew] 8 (some (Raster.src 2 3 1)) INTER_NEAREST 1 =
        .ok out.masks ∧
      savedPart wPersp [wPerspNew] 8 none INTER_NEAREST 1 = .ok out.segmentations ∧
      savedPart wPersp [wPerspNew] 8 (some (Raster.src 2 3 3)) INTER_AREA 1 =
        .ok out.images :=
  ⟨_, rfl,
   masks_never_scaled wPersp [wPerspNew] 8 (some (Raster.src 2 3 3))
     (some (Raster.src 2 3 1)) none "jpg" 1 _ rfl⟩

/-! ## Track-graph projector lemmas -/

/-- `add_node` never touches the edge list. -/
theorem add_node_edges (g : TrackGraph) (n : String) : (g.add_node n).edges = g.edges := by
  unfold TrackGraph.add_node
  split <;> rfl

/-- `add_edge` appends exactly one edge. -/
theorem add_edge_edges (g : TrackGraph) (u v : String) (e : Edge) :
    (g.add_edge u v e).edges = g.edges ++ [(u, v, e)] := by
  show ((g.add_node u).add_node v).edges ++ [(u, v, e)] = g.edges ++ [(u, v, e)]
  rw [add_node_edges, add_node_edges]

/-- When the panorama is not a node of the graph, `add_subshot_tracks` is the
identity (shared helper). -/
theorem add_subshot_tracks_eq_of_not_node (graph : TrackGraph) (panoshot perspectiveshot : Shot)
    (h : panoshot.id ∉ graph.nodes) :
    add_subshot_tracks graph panoshot perspectiveshot = graph := by
  simp [add_subshot_tracks, h]

/-- When the observation is accepted, the loop body adds exactly the
re-projected edge. -/
theorem add_subshot_tracks_step_accepted (panoshot perspectiveshot : Shot) (g : TrackGraph)
    (te : String × Edge) (hacc : subshotAccepted panoshot perspectiveshot te.2) :
    add_subshot_tracks_step panoshot perspectiveshot g te =
      g.add_edge perspectiveshot.id te.1
        ⟨subshotFeature panoshot perspectiveshot te.2, te.2.feature_id, te.2.feature_color⟩ := by
  obtain ⟨h1, h2, h3, h4, h5⟩ := hacc
  unfold add_subshot_tracks_step
  rw [if_neg (not_le.mpr h1), if_neg ?_]
  push_neg
  exact ⟨h2, h3, h4, h5⟩

/-- When the observation is not accepted, the loop body leaves the graph
unchanged. -/
theorem add_subshot_tracks_step_rejected (panoshot perspectiveshot : Shot) (g : TrackGraph)
    (te : String × Edge) (hacc : ¬ subshotAccepted panoshot perspectiveshot te.2) :
    add_subshot_tracks_step panoshot perspectiveshot g te = g := by
  unfold add_subshot_tracks_step
  by_cases hz : (subshotRotatedBearing panoshot perspectiveshot te.2).z ≤ 0
  · rw [if_pos hz]
  · rw [if_neg hz]
    have houts : (subshotFeature panoshot perspectiveshot te.2).1 < -(1 / 2) ∨
        (subshotFeature panoshot perspectiveshot te.2).1 > 1 / 2 ∨
        (subshotFeature panoshot perspectiveshot te.2).2 < -(1 / 2) ∨
        (subshotFeature panoshot perspectiveshot te.2).2 > 1 / 2 := by
      by_contra hcon
      push_neg at hcon
      exact hacc ⟨not_le.mp hz, hcon.1, hcon.2.1, hcon.2.2.1, hcon.2.2.2⟩
    rw [if_pos houts]

/-- Characterization of the edges of the per-track fold: an edge is in the
result iff it was in the accumulator or it is the re-projection of an
accepted observation of the processed list. -/
theorem mem_edges_foldl_step (panoshot perspectiveshot : Shot) (l : List (String × Edge))
    (acc : TrackGraph) (x : String × String × Edge) :
    x ∈ (l.foldl (add_subshot_tracks_step panoshot perspectiveshot) acc).edges ↔
      x ∈ acc.edges ∨ ∃ te ∈ l, subshotAccepted panoshot perspectiveshot te.2 ∧
        x = (perspectiveshot.id, te.1,
          ⟨subshotFeature panoshot perspectiveshot te.2, te.2.feature_id,
           te.2.feature_color⟩) := by
  induction l generalizing acc with
  | nil => simp
  | cons te rest ih =>
    rw [List.foldl_cons, ih]
    by_cases hacc : subshotAccepted panoshot perspectiveshot te.2
    · rw [add_subshot_tracks_step_accepted panoshot perspectiveshot acc te hacc,
        add_edge_edges]
      simp only [List.mem_append, List.mem_singleton, List.exists_mem_cons_iff, hacc,
        true_and]
      tauto
    · rw [add_subshot_tracks_step_rejected panoshot perspectiveshot acc te hacc]
      simp only [List.exists_mem_cons_iff, hacc, false_and]
      tauto

/-- Characterization of the edges of `add_subshot_tracks` when the panorama
is a node of the graph. -/
theorem mem_edges_add_subshot_tracks (graph : TrackGraph) (panoshot perspectiveshot : Shot)
    (hnode : panoshot.id ∈ graph.nodes) (x : String × String × Edge) :
    x ∈ (add_subshot_tracks graph panoshot perspectiveshot).edges ↔
      x ∈ graph.edges ∨ ∃ te ∈ graph.adj panoshot.id,
        subshotAccepted panoshot perspectiveshot te.2 ∧
        x = (perspectiveshot.id, te.1,
          ⟨subshotFeature panoshot perspectiveshot te.2, te.2.feature_id,
           te.2.feature_color⟩) := by
  unfold add_subshot_tracks
  rw [if_neg (not_not_intro hnode), mem_edges_foldl_step, add_node_edges]

/-- C2: an observation whose rotated bearing has forward component `≤ 0`, or
whose projection through the sub-view camera leaves `[-0.5, 0.5]` on either
axis, contributes no `(sub-shot, track)` edge; and every `(sub-shot, track)`
edge of the result comes from an observation with forward component `> 0`
and projected coordinates inside `[-0.5, 0.5]`, which are the coordinates
the edge carries.  (The freshness hypothesis says the sub-shot had no edges
before, which is how the orchestrator always calls this function: sub-shot
ids are newly minted.) -/
theorem track_projector_filter_invariant (graph : TrackGraph) (panoshot perspectiveshot : Shot)
    (hfresh : ∀ x ∈ graph.edges, x.1 ≠ perspectiveshot.id) :
    (∀ track : String,
      (∀ te ∈ graph.adj panoshot.id, te.1 = track →
        (subshotRotatedBearing panoshot perspectiveshot te.2).z ≤ 0 ∨
        (subshotFeature panoshot perspectiveshot te.2).1 < -(1 / 2) ∨
        (subshotFeature panoshot perspectiveshot te.2).1 > 1 / 2 ∨
        (subshotFeature panoshot perspectiveshot te.2).2 < -(1 / 2) ∨
        (subshotFeature panoshot perspectiveshot te.2).2 > 1 / 2) →
      ∀ e : Edge, (perspectiveshot.id, track, e) ∉
        (add_subshot_tracks graph panoshot perspectiveshot).edges) ∧
    (∀ (track : String) (e : Edge),
      (perspectiveshot.id, track, e) ∈
        (add_subshot_tracks graph panoshot perspectiveshot).edges →
      -(1 / 2) ≤ e.feature.1 ∧ e.feature.1 ≤ 1 / 2 ∧
      -(1 / 2) ≤ e.feature.2 ∧ e.feature.2 ≤ 1 / 2 ∧
      ∃ te ∈ graph.adj panoshot.id, te.1 = track ∧
        0 < (subshotRotatedBearing panoshot perspectiveshot te.2).z ∧
        e = ⟨subshotFeature panoshot perspectiveshot te.2, te.2.feature_id,
          te.2.feature_color⟩) := by
  by_cases hnode : panoshot.id ∈ graph.nodes
  · constructor
    · intro track hrej e hmem
      rw [mem_edges_add_subshot_tracks graph panoshot perspectiveshot hnode] at hmem
      rcases hmem with hmem | ⟨te, hte, hacc, hx⟩
      · exact hfresh _ hmem rfl
      · obtain ⟨h1, h2, h3, h4, h5⟩ := hacc
        rw [Prod.mk.injEq, Prod.mk.injEq] at hx
        have htr : te.1 = track := hx.2.1.symm
        rcases hrej te hte htr with hc | hc | hc | hc | hc
        · exact absurd h1 (not_lt.mpr hc)
        · exact absurd h2 (not_le.mpr hc)
        · exact absurd h3 (not_le.mpr hc)
        · exact absurd h4 (not_le.mpr hc)
        · exact absurd h5 (not_le.mpr hc)
    · intro track e hmem
      rw [mem_edges_add_subshot_tracks graph panoshot perspectiveshot hnode] at hmem
      rcases hmem with hmem | ⟨te, hte, hacc, hx⟩
      · exact absurd rfl (hfresh _ hmem)
      · obtain ⟨h1, h2, h3, h4, h5⟩ := hacc
        rw [Prod.mk.injEq, Prod.mk.injEq] at hx
        obtain ⟨-, htr, he⟩ := hx
        subst he
        exact ⟨h2, h3, h4, h5, te, hte, htr.symm, h1, rfl⟩
  · rw [add_subshot_tracks_eq_of_not_node graph panoshot perspectiveshot hnode]
    constructor
    · intro track _ e hmem
      exact hfresh _ hmem rfl
    · intro track e hmem
      exact absurd rfl (hfresh _ hmem)

/-- The first observed track edge of the concrete witness panorama: accepted
(ray straight ahead). -/
def wEdge1 : Edge := ⟨(0, 0), 7, (10, 20, 30)⟩

/-- The second observed track edge of the concrete witness panorama:
rejected (projects far outside the sub-view). -/
def wEdge2 : Edge := ⟨(2, 0), 8, (1, 2, 3)⟩

/-- A concrete track graph containing the witness panorama's observations. -/
def wGraphPano : TrackGraph :=
  { nodes := ["pano1", "t1", "t2"]
    edges := [("pano1", "t1", wEdge1), ("pano1", "t2", wEdge2)] }

/-- Witness for C2 at the concrete panorama track graph. -/
theorem track_projector_filter_invariant_witness :
    (∀ x ∈ wGraphPano.edges, x.1 ≠ wSub.id) ∧
    (∀ (track : String) (e : Edge),
      (wSub.id, track, e) ∈ (add_subshot_tracks wGraphPano wPano wSub).edges →
      -(1 / 2) ≤ e.feature.1 ∧ e.feature.1 ≤ 1 / 2 ∧
      -(1 / 2) ≤ e.feature.2 ∧ e.feature.2 ≤ 1 / 2) :=
  ⟨by decide, fun track e hmem =>
    match (track_projector_filter_invariant wGraphPano wPano wSub (by decide)).2
        track e hmem with
    | ⟨h1, h2, h3, h4, _⟩ => ⟨h1, h2, h3, h4⟩⟩

/-- C6: every accepted panorama observation yields an edge
`(sub-shot, track)` carrying the projection through the sub-view camera of
the observation's bearing rotated by `R = R_sub · R_pano⁻¹` (inverse
realized as the transpose), together with the original feature id and
feature color unchanged. -/
theorem track_projector_payload_spec (graph : TrackGraph) (panoshot perspectiveshot : Shot)
    (hnode : panoshot.id ∈ graph.nodes) (te : String × Edge)
    (hte : te ∈ graph.adj panoshot.id)
    (hz : 0 < ((perspectiveshot.pose.rotation.mul panoshot.pose.rotation.transpose).mulVec
      (panoshot.camera.pixel_bearing te.2.feature)).z)
    (hx1 : -(1 / 2) ≤ (perspectiveshot.camera.project
      ((perspectiveshot.pose.rotation.mul panoshot.pose.rotation.transpose).mulVec
        (panoshot.camera.pixel_bearing te.2.feature))).1)
    (hx2 : (perspectiveshot.camera.project
      ((perspectiveshot.pose.rotation.mul panoshot.pose.rotation.transpose).mulVec
        (panoshot.camera.pixel_bearing te.2.feature))).1 ≤ 1 / 2)
    (hy1 : -(1 / 2) ≤ (perspectiveshot.camera.project
      ((perspectiveshot.pose.rotation.mul panoshot.pose.rotation.transpose).mulVec
        (panoshot.camera.pixel_bearing te.2.feature))).2)
    (hy2 : (perspectiveshot.camera.project
      ((perspectiveshot.pose.rotation.mul panoshot.pose.rotation.transpose).mulVec
        (panoshot.camera.pixel_bearing te.2.feature))).2 ≤ 1 / 2) :
    (perspectiveshot.id, te.1,
      (⟨perspectiveshot.camera.project
          ((perspectiveshot.pose.rotation.mul panoshot.pose.rotation.transpose).mulVec
            (panoshot.camera.pixel_bearing te.2.feature)),
        te.2.feature_id, te.2.feature_color⟩ : Edge)) ∈
      (add_subshot_tracks graph panoshot perspectiveshot).edges := by
  rw [mem_edges_add_subshot_tracks graph panoshot perspectiveshot hnode]
  exact Or.inr ⟨te, hte, ⟨hz, hx1, hx2, hy1, hy2⟩, rfl⟩

/-- Witness for C6: the accepted observation of the concrete panorama graph
produces its re-projected edge with feature id 7 and color (10, 20, 30)
unchanged. -/
theorem track_projector_payload_spec_witness :
    wPano.id ∈ wGraphPano.nodes ∧
    ("t1", wEdge1) ∈ wGraphPano.adj wPano.id ∧
    0 < (subshotRotatedBearing wPano wSub wEdge1).z ∧
    -(1 / 2) ≤ (subshotFeature wPano wSub wEdge1).1 ∧
    (subshotFeature wPano wSub wEdge1).1 ≤ 1 / 2 ∧
    -(1 / 2) ≤ (subshotFeature wPano wSub wEdge1).2 ∧
    (subshotFeature wPano wSub wEdge1).2 ≤ 1 / 2 ∧
    (wSub.id, "t1",
      (⟨subshotFeature wPano wSub wEdge1, 7, (10, 20, 30)⟩ : Edge)) ∈
      (add_subshot_tracks wGraphPano wPano wSub).edges := by
  have hz : 0 < (subshotRotatedBearing wPano wSub wEdge1).z := by
    norm_num [subshotRotatedBearing, wPano, wSub, wEdge1, Mat3.mul, Mat3.transpose,
      Mat3.mulVec]
  have hx1 : -(1 / 2) ≤ (subshotFeature wPano wSub wEdge1).1 := by
    norm_num [subshotFeature, subshotRotatedBearing, wPano, wSub, wEdge1, Mat3.mul,
      Mat3.transpose, Mat3.mulVec]
  have hx2 : (subshotFeature wPano wSub wEdge1).1 ≤ 1 / 2 := by
    norm_num [subshotFeature, subshotRotatedBearing, wPano, wSub, wEdge1, Mat3.mul,
      Mat3.transpose, Mat3.mulVec]
  have hy1 : -(1 / 2) ≤ (subshotFeature wPano wSub wEdge1).2 := by
    norm_num [subshotFeature, subshotRotatedBearing, wPano, wSub, wEdge1, Mat3.mul,
      Mat3.transpose, Mat3.mulVec]
  have hy2 : (subshotFeature wPano wSub wEdge1).2 ≤ 1 / 2 := by
    norm_num [subshotFeature, subshotRotatedBearing, wPano, wSub, wEdge1, Mat3.mul,
      Mat3.transpose, Mat3.mulVec]
  exact ⟨by decide, List.Mem.head _, hz, hx1, hx2, hy1, hy2,
    track_projector_payload_spec wGraphPano wPano wSub (by decide) ("t1", wEdge1)
      (List.Mem.head _) hz hx1 hx2 hy1 hy2⟩

/-! ## Orchestrator lemmas -/

/-- The projection kinds with a branch in the orchestration pass. -/
def recognized_projection_kinds : List String :=
  ["perspective", "brown", "fisheye", "equirectangular", "spherical"]

/-- The non-panorama projection kinds of the orchestration pass. -/
def lens_projection_kinds : List String :=
  ["perspective", "brown", "fisheye"]

/-- Keys after a dictionary assignment: the assigned key plus the previous
keys. -/
theorem keys_updateAssoc {β : Type} (m : List (String × β)) (k : String) (v : β)
    (k2 : String) :
    k2 ∈ (updateAssoc m k v).map Prod.fst ↔ k2 = k ∨ k2 ∈ m.map Prod.fst := by
  induction m with
  | nil => simp [updateAssoc]
  | cons p rest ih =>
    by_cases h : k = p.1
    · subst h
      simp [updateAssoc]
    · simp only [updateAssoc, if_neg h, List.map_cons, List.mem_cons, ih]
      tauto

/-- A dictionary lookup fails exactly when the key is absent. -/
theorem lookupAssoc_eq_none {β : Type} (m : List (String × β)) (k : String) :
    lookupAssoc m k = none ↔ k ∉ m.map Prod.fst := by
  induction m with
  | nil => simp [lookupAssoc]
  | cons p rest ih =>
    by_cases h : k = p.1
    · subst h
      simp [lookupAssoc]
    · simp [lookupAssoc, h, ih]

/-- The panorama inner loop only grows the shot table. -/
theorem add_pano_subshots_shots_mono (urec : Reconstruction) (g : TrackGraph) (shot : Shot)
    (subs : List Shot) (k : String) (hk : k ∈ urec.shots.map Prod.fst) :
    k ∈ (add_pano_subshots urec g shot subs).1.shots.map Prod.fst := by
  induction subs generalizing urec g with
  | nil => exact hk
  | cons s rest ih =>
    exact ih _ (add_subshot_tracks g shot s)
      ((keys_updateAssoc _ _ _ _).mpr (Or.inr hk))

/-- The orchestration pass only grows the shot table. -/
theorem pass_shots_keys_mono (l : List Shot) (g : TrackGraph) (urec : Reconstruction)
    (m : List (String × List Shot)) (d : Int) (k : String)
    (hk : k ∈ urec.shots.map Prod.fst) :
    k ∈ (undistort_shots_pass g urec m d l).2.1.shots.map Prod.fst := by
  induction l generalizing g urec m with
  | nil => exact hk
  | cons shot rest ih =>
    simp only [undistort_shots_pass]
    split_ifs with h1 h2 h3 h4
    · exact ih _ _ _ ((keys_updateAssoc _ _ _ _).mpr (Or.inr hk))
    · exact ih _ _ _ ((keys_updateAssoc _ _ _ _).mpr (Or.inr hk))
    · exact ih _ _ _ ((keys_updateAssoc _ _ _ _).mpr (Or.inr hk))
    · exact ih _ _ _ (add_pano_subshots_shots_mono _ _ _ _ _ hk)
    · exact ih _ _ _ hk

/-- Every perspective, brown or fisheye shot of the walked list is
registered (under its id) in the pass's undistorted reconstruction. -/
theorem pass_registers_lens_shots (l : List Shot) (g : TrackGraph) (urec : Reconstruction)
    (m : List (String × List Shot)) (d : Int) (s : Shot) (hs : s ∈ l)
    (hkind : s.camera.projection_type ∈ lens_projection_kinds) :
    s.id ∈ (undistort_shots_pass g urec m d l).2.1.shots.map Prod.fst := by
  induction l generalizing g urec m with
  | nil => cases hs
  | cons shot rest ih =>
    rcases List.mem_cons.mp hs with rfl | hs2
    · simp only [lens_projection_kinds, List.mem_cons, List.not_mem_nil, or_false] at hkind
      rcases hkind with h | h | h
      · have hstep : undistort_shots_pass g urec m d (s :: rest) =
            undistort_shots_pass g ((urec.add_camera s.camera).add_shot s)
              (updateAssoc m s.id [s]) d rest := by
          simp [undistort_shots_pass, h]
        rw [hstep]
        exact pass_shots_keys_mono rest g _ _ d s.id
          ((keys_updateAssoc _ _ _ _).mpr (Or.inl rfl))
      · have hstep : undistort_shots_pass g urec m d (s :: rest) =
            undistort_shots_pass g
              ((urec.add_camera (perspective_camera_from_brown s.camera)).add_shot
                { id := s.id, camera := perspective_camera_from_brown s.camera
                  pose := s.pose, metadata := s.metadata })
              (updateAssoc m s.id
                [{ id := s.id, camera := perspective_camera_from_brown s.camera
                   pose := s.pose, metadata := s.metadata }]) d rest := by
          simp [undistort_shots_pass, h]
        rw [hstep]
        exact pass_shots_keys_mono rest g _ _ d s.id
          ((keys_updateAssoc _ _ _ _).mpr (Or.inl rfl))
      · have hstep : undistort_shots_pass g urec m d (s :: rest) =
            undistort_shots_pass g
              ((urec.add_camera (perspective_camera_from_fisheye s.camera)).add_shot
                { id := s.id, camera := perspective_camera_from_fisheye s.camera
                  pose := s.pose, metadata := s.metadata })
              (updateAssoc m s.id
                [{ id := s.id, camera := perspective_camera_from_fisheye s.camera
                   pose := s.pose, metadata := s.metadata }]) d rest := by
          simp [undistort_shots_pass, h]
        rw [hstep]
        exact pass_shots_keys_mono rest g _ _ d s.id
          ((keys_updateAssoc _ _ _ _).mpr (Or.inl rfl))
    · simp only [undistort_shots_pass]
      split_ifs with h1 h2 h3 h4
      · exact ih _ _ _ hs2
      · exact ih _ _ _ hs2
      · exact ih _ _ _ hs2
      · exact ih _ _ _ hs2
      · exact ih _ _ _ hs2

/-- Every key of the pass's shot-id mapping is either a previous key or the
id of a walked shot with a recognized projection kind: a shot of any other
kind leaves no mapping entry. -/
theorem pass_mapping_keys (l : List Shot) (g : TrackGraph) (urec : Reconstruction)
    (m : List (String × List Shot)) (d : Int) (k : String)
    (hk : k ∈ (undistort_shots_pass g urec m d l).2.2.map Prod.fst) :
    k ∈ m.map Prod.fst ∨ ∃ s ∈ l, s.id = k ∧
      s.camera.projection_type ∈ recognized_projection_kinds := by
  induction l generalizing g urec m with
  | nil => exact Or.inl hk
  | cons shot rest ih =>
    simp only [undistort_shots_pass] at hk
    split_ifs at hk with h1 h2 h3 h4
    · rcases ih _ _ _ hk with hm | ⟨s, hs, hid, hrec⟩
      · rcases (keys_updateAssoc _ _ _ _).mp hm with rfl | hm2
        · exact Or.inr ⟨shot, List.mem_cons_self _ _, rfl,
            by simp [recognized_projection_kinds, h1]⟩
        · exact Or.inl hm2
      · exact Or.inr ⟨s, List.mem_cons_of_mem _ hs, hid, hrec⟩
    · rcases ih _ _ _ hk with hm | ⟨s, hs, hid, hrec⟩
      · rcases (keys_updateAssoc _ _ _ _).mp hm with rfl | hm2
        · exact Or.inr ⟨shot, List.mem_cons_self _ _, rfl,
            by simp [recognized_projection_kinds, h2]⟩
        · exact Or.inl hm2
      · exact Or.inr ⟨s, List.mem_cons_of_mem _ hs, hid, hrec⟩
    · rcases ih _ _ _ hk with hm | ⟨s, hs, hid, hrec⟩
      · rcases (keys_updateAssoc _ _ _ _).mp hm with rfl | hm2
        · exact Or.inr ⟨shot, List.mem_cons_self _ _, rfl,
            by simp [recognized_projection_kinds, h3]⟩
        · exact Or.inl hm2
      · exact Or.inr ⟨s, List.mem_cons_of_mem _ hs, hid, hrec⟩
    · rcases ih _ _ _ hk with hm | ⟨s, hs, hid, hrec⟩
      · rcases (keys_updateAssoc _ _ _ _).mp hm with rfl | hm2
        · refine Or.inr ⟨shot, List.mem_cons_self _ _, rfl, ?_⟩
          rcases h4 with h | h <;> simp [recognized_projection_kinds, h]
        · exact Or.inl hm2
      · exact Or.inr ⟨s, List.mem_cons_of_mem _ hs, hid, hrec⟩
    · rcases ih _ _ _ hk with hm | ⟨s, hs, hid, hrec⟩
      · exact Or.inl hm
      · exact Or.inr ⟨s, List.mem_cons_of_mem _ hs, hid, hrec⟩

/-- If some walked shot's id is absent from the mapping, the argument
assembly raises (the first such shot raises a `KeyError`). -/
theorem collect_args_error (m : List (String × List Shot)) (l : List Shot) (u : Shot)
    (hu : u ∈ l) (hnone : lookupAssoc m u.id = none) :
    ∃ msg, collect_args m l = .error msg := by
  induction l with
  | nil => cases hu
  | cons shot rest ih =>
    cases hl : lookupAssoc m shot.id with
    | none => exact ⟨"KeyError: " ++ shot.id, by simp [collect_args, hl]⟩
    | some v =>
      rcases List.mem_cons.mp hu with rfl | hu2
      · rw [hl] at hnone
        exact Option.noConfusion hnone
      · obtain ⟨msg, hmsg⟩ := ih hu2
        exact ⟨msg, by simp [collect_args, hl, hmsg, Except.map]⟩

/-- C1 (amended): a shot whose camera projection kind matches none of the
five recognized tags is passed over silently by the orchestration pass — it
gets no mapping entry and is not registered — and the run then aborts, but
with a key-lookup error (`KeyError`) while assembling the per-shot
resampling arguments, not with the "unsupported projection" error; that
`NotImplementedError` is raised only by `undistort_image`.  Recognized
shots, before and after the offending one, remain validly registered in the
undistorted reconstruction. -/
theorem unsupported_projection_behaviour (graph : TrackGraph)
    (reconstruction : Reconstruction) (d : Int) (u : Shot)
    (hu : u ∈ reconstruction.shots.map Prod.snd)
    (hunrec : ∀ s ∈ reconstruction.shots.map Prod.snd, s.id = u.id →
      s.camera.projection_type ∉ recognized_projection_kinds) :
    u.id ∉
      (Command.undistort_reconstruction graph reconstruction d).undistorted_shots.map
        Prod.fst ∧
    (∃ msg, (Command.undistort_reconstruction graph reconstruction d).args =
      .error msg) ∧
    (∀ s ∈ reconstruction.shots.map Prod.snd,
      s.camera.projection_type ∈ lens_projection_kinds →
      s.id ∈ (Command.undistort_reconstruction graph reconstruction d).urec.shots.map
        Prod.fst) ∧
    (∀ (ushots : List Shot) (r : Raster) (i : Nat) (sc : ℚ),
      undistort_image u ushots d (some r) i sc =
        .error ("Undistort not implemented for projection type: " ++
          u.camera.projection_type)) := by
  have hmapkey : u.id ∉
      (undistort_shots_pass graph { points := reconstruction.points } [] d
        (reconstruction.shots.map Prod.snd)).2.2.map Prod.fst := by
    intro hk
    rcases pass_mapping_keys _ _ _ _ _ _ hk with hm | ⟨s, hs, hid, hrec⟩
    · exact absurd hm (List.not_mem_nil _)
    · exact hunrec s hs hid hrec
  refine ⟨hmapkey, ?_, ?_, ?_⟩
  · exact collect_args_error _ _ u hu ((lookupAssoc_eq_none _ _).mpr hmapkey)
  · intro s hs hkind
    exact pass_registers_lens_shots _ _ _ _ _ s hs hkind
  · intro ushots r i sc
    have hpt := hunrec u hu rfl
    have hp : u.camera.projection_type ≠ "perspective" := fun hh =>
      hpt (by simp [recognized_projection_kinds, hh])
    have hb : u.camera.projection_type ≠ "brown" := fun hh =>
      hpt (by simp [recognized_projection_kinds, hh])
    have hf : u.camera.projection_type ≠ "fisheye" := fun hh =>
      hpt (by simp [recognized_projection_kinds, hh])
    have he : u.camera.projection_type ≠ "equirectangular" := fun hh =>
      hpt (by simp [recognized_projection_kinds, hh])
    have hsp : u.camera.projection_type ≠ "spherical" := fun hh =>
      hpt (by simp [recognized_projection_kinds, hh])
    simp [undistort_image, hp, hb, hf, he, hsp]

/-- A concrete shot of an unrecognized projection kind. -/
def wUnknownShot : Shot :=
  { id := "B", camera := { id := "camB", projection_type := "weird" } }

/-- A concrete perspective shot listed after the unknown-kind shot. -/
def wAfterShot : Shot :=
  { id := "A"
    camera := { id := "camA", projection_type := "perspective", width := 3, height := 2
                focal := 1 } }

/-- A concrete reconstruction whose first shot has an unrecognized
projection kind and whose second is perspective. -/
def wRecUnknown : Reconstruction :=
  { cameras := [("camB", wUnknownShot.camera), ("camA", wAfterShot.camera)]
    shots := [("B", wUnknownShot), ("A", wAfterShot)]
    points := ["p1"] }

/-- The empty track graph. -/
def wEmptyGraph : TrackGraph := {}

/-- Counterexample for C1 as stated: with the unknown-kind shot `B` walked
first, the perspective shot `A` walked after it is still processed and
registered — the pass does not abort at `B`, it silently skips it — and the
run's eventual abort is the `KeyError` raised while assembling the
resampling arguments, not an "unsupported projection" error. -/
theorem unsupported_projection_counterexample :
    (Command.undistort_reconstruction wEmptyGraph wRecUnknown 8).urec.shots =
      [("A", wAfterShot)] ∧
    (Command.undistort_reconstruction wEmptyGraph wRecUnknown 8).args =
      Except.error "KeyError: B" ∧
    (Command.undistort_reconstruction wEmptyGraph wRecUnknown 8).args ≠
      Except.error ("Undistort not implemented for projection type: weird") := by
  refine ⟨rfl, rfl, fun hcon => ?_⟩
  rw [show (Command.undistort_reconstruction wEmptyGraph wRecUnknown 8).args =
    Except.error "KeyError: B" from rfl] at hcon
  injection hcon with hmsg
  exact absurd hmsg (by decide)

/-- Witness for the amended C1 at the concrete reconstruction: the unknown
shot is in the walked shots, every shot with its id is unrecognized, and the
amended behaviour follows. -/
theorem unsupported_projection_behaviour_witness :
    wUnknownShot ∈ wRecUnknown.shots.map Prod.snd ∧
    (wUnknownShot.id ∉
      (Command.undistort_reconstruction wEmptyGraph wRecUnknown 8).undistorted_shots.map
        Prod.fst) ∧
    (∃ msg, (Command.undistort_reconstruction wEmptyGraph wRecUnknown 8).args =
      .error msg) ∧
    undistort_image wUnknownShot [] 8 (some (Raster.src 2 3 3)) INTER_AREA 1 =
      .error "Undistort not implemented for projection type: weird" := by
  have h := unsupported_projection_behaviour wEmptyGraph wRecUnknown 8 wUnknownShot
    (List.Mem.head _) (by decide)
  exact ⟨List.Mem.head _, h.1, h.2.1, h.2.2.2 [] (Raster.src 2 3 3) INTER_AREA 1⟩

end Undistort
